import Mathlib

/-!
Verification of the Drip spaced-repetition scheduling core
(`database_manager.py` and the option assembly in `reviewer_module.py`).

Timestamps are modelled as rational numbers measured in hours, so a
difference of timestamps is directly the number of hours between them
(`timedelta(hours=h)` becomes `+ h`).  The flashcard store is a list of
records mirroring the `flashcards` table; SQL `WHERE id = ?` lookups
become `List.find?` on the id and SQL `UPDATE ... WHERE id = ?` becomes a
map over the rows with matching id.
-/

namespace Drip

/-- One row of the `flashcards` table / the `FlashCard` Python class.
The Python field `example` is called `example_` here because `example`
is a Lean keyword. -/
structure FlashCard where
  id : Nat
  word : String
  meaning : String
  example_ : String
  tag : String
  stage_id : Nat
  correct : Option Bool
  created_at : Option ℚ
  last_reviewed_at : Option ℚ
  next_review_time : Option ℚ
  review_count : Nat
  correct_count : Nat
  wrong_count : Nat
  priority_score : ℚ
  interval_hours : ℚ
deriving DecidableEq

/-- A concrete card used as input of the witness theorems (fixed content
fields, scheduling state passed in). -/
def sampleCard (id stage : Nat) (corr : Option Bool) (next : Option ℚ)
    (rev cc wc : Nat) (prio ivh : ℚ) : FlashCard :=
  { id := id, word := "w", meaning := "m", example_ := "", tag := "",
    stage_id := stage, correct := corr, created_at := none,
    last_reviewed_at := none, next_review_time := next,
    review_count := rev, correct_count := cc, wrong_count := wc,
    priority_score := prio, interval_hours := ivh }

/-- `base_intervals = {1: 0.5, 2: 2, 3: 24, 4: 168}` with
`base_intervals.get(stage_id, 0.5)` — the dictionary lookup with default
0.5 from `_calculate_next_interval`. -/
def base_intervals (stage : Nat) : ℚ :=
  match stage with
  | 1 => 1/2
  | 2 => 2
  | 3 => 24
  | 4 => 168
  | _ => 1/2

/-- `_calculate_next_interval` from `database_manager.py` (result strings
are compared literally, as in the source). -/
def _calculate_next_interval (flashcard : FlashCard) (result : String) : ℚ :=
  let base_interval := base_intervals flashcard.stage_id
  if result = "True" then
    let multiplier : ℚ := if flashcard.stage_id ≤ 2 then 2 else 3/2
    base_interval * multiplier
  else if result = "False" then
    base_interval * (1/2)
  else if result = "TIMEOUT" then
    base_interval
  else if result = "ESCAPE" then
    base_interval
  else
    base_interval

/-- `stage_priority = {1: 100, 2: 80, 3: 60, 4: 40}`.  The source indexes
this dictionary directly (`stage_priority[flashcard.stage_id]`); the
schema CHECK constraint restricts `stage_id` to 1..4, so the out-of-range
value chosen here (0) is never reached on states the database admits, and
every theorem about the score restricts the stage accordingly. -/
def stage_priority (stage : Nat) : ℚ :=
  match stage with
  | 1 => 100
  | 2 => 80
  | 3 => 60
  | 4 => 40
  | _ => 0

/-- `_calculate_priority_score` from `database_manager.py`; `current_time`
is the `datetime.now()` sampled inside the function; overdue hours are
`(current_time - next_review).total_seconds() / 3600`, which in the
hours-as-ℚ model is just the difference. -/
def _calculate_priority_score (flashcard : FlashCard) (current_time : ℚ) : ℚ :=
  let base_score := stage_priority flashcard.stage_id
  let overdue_bonus : ℚ :=
    match flashcard.next_review_time with
    | none => 0
    | some next_review =>
        if next_review ≤ current_time then
          min ((current_time - next_review) * 5) 50
        else 0
  let wrong_penalty : ℚ := if flashcard.correct = some false then 30 else 0
  let creation_bonus : ℚ := if flashcard.stage_id = 1 then 20 else 0
  base_score + overdue_bonus + wrong_penalty + creation_bonus

/-- `SELECT * FROM flashcards WHERE id = ?` followed by `fetchone()`:
the first row with the given id. -/
def findCard (store : List FlashCard) (fid : Nat) : Option FlashCard :=
  store.find? (fun c => c.id == fid)

/-- `UPDATE flashcards SET ... WHERE id = ?`: rewrite every row whose id
matches (ids are a primary key, so at most one row in admissible stores). -/
def updateCard (store : List FlashCard) (fid : Nat) (g : FlashCard → FlashCard) :
    List FlashCard :=
  store.map (fun c => if c.id == fid then g c else c)

/-- `_update_priority_score` from `database_manager.py`: fetch the card by
id, recompute its priority score, store it back; silently does nothing when
the id is absent. -/
def _update_priority_score (store : List FlashCard) (fid : Nat) (now : ℚ) :
    List FlashCard :=
  match findCard store fid with
  | none => store
  | some flashcard =>
      updateCard store fid
        (fun c => { c with priority_score := _calculate_priority_score flashcard now })

/-- `update_flashcard_after_review` from `database_manager.py`.  The two
`datetime.now()` samples taken microseconds apart inside the function are
modelled as the single instant `now`.  Every branch of the source ends in a
plain `return`; in particular a missing id (`if not row: return`) leaves the
store untouched. -/
def update_flashcard_after_review (store : List FlashCard) (flashcard_id : Nat)
    (result : String) (now : ℚ) : List FlashCard :=
  match findCard store flashcard_id with
  | none => store
  | some flashcard =>
    if result = "TIMEOUT" then
      let store1 := updateCard store flashcard_id
        (fun c => { c with last_reviewed_at := some now,
                           review_count := flashcard.review_count + 1 })
      _update_priority_score store1 flashcard_id now
    else if result = "ESCAPE" then
      let store1 := updateCard store flashcard_id
        (fun c => { c with last_reviewed_at := some now,
                           review_count := flashcard.review_count + 1 })
      _update_priority_score store1 flashcard_id now
    else
      let new_interval := _calculate_next_interval flashcard result
      let next_review := now + new_interval
      if result = "True" then
        let new_stage := min (flashcard.stage_id + 1) 4
        let store1 := updateCard store flashcard_id
          (fun c => { c with stage_id := new_stage, correct := some true,
                             last_reviewed_at := some now,
                             next_review_time := some next_review,
                             review_count := flashcard.review_count + 1,
                             correct_count := flashcard.correct_count + 1,
                             interval_hours := new_interval })
        _update_priority_score store1 flashcard_id now
      else if result = "False" then
        let store1 := updateCard store flashcard_id
          (fun c => { c with correct := some false,
                             last_reviewed_at := some now,
                             next_review_time := some next_review,
                             review_count := flashcard.review_count + 1,
                             wrong_count := flashcard.wrong_count + 1,
                             interval_hours := new_interval })
        _update_priority_score store1 flashcard_id now
      else
        _update_priority_score store flashcard_id now

/-- Looking a card up after an id-targeted rewrite: the first row with the
id is the rewritten one (the rewrite preserves ids). -/
theorem findCard_updateCard (store : List FlashCard) (fid : Nat)
    (g : FlashCard → FlashCard) (hg : ∀ c, (g c).id = c.id) :
    findCard (updateCard store fid g) fid = (findCard store fid).map g := by
  induction store with
  | nil => rfl
  | cons c cs ih =>
      by_cases h : c.id = fid
      · have hb : (c.id == fid) = true := by simp [h]
        have hgb : ((g c).id == fid) = true := by simp [hg c, h]
        simp [findCard, updateCard, List.find?, hb, hgb] at ih ⊢
      · have hb : (c.id == fid) = false := by simp [h]
        simp only [findCard, updateCard, List.map_cons, List.find?, hb] at ih ⊢
        simpa [hb] using ih

/-- Recomputing the cached priority score of the row with id `fid`
replaces exactly that field, computed from the looked-up row. -/
theorem findCard_update_priority (store : List FlashCard) (fid : Nat) (now : ℚ)
    (c : FlashCard) (h : findCard store fid = some c) :
    findCard (_update_priority_score store fid now) fid =
      some { c with priority_score := _calculate_priority_score c now } := by
  have key := findCard_updateCard store fid
    (fun x => { x with priority_score := _calculate_priority_score c now })
    (fun _ => rfl)
  simp only [_update_priority_score, h, key]
  rfl

/-- The exact row produced by the "TIMEOUT"/"ESCAPE" branch of
`update_flashcard_after_review`: bump `review_count`, stamp
`last_reviewed_at`, then recompute the cached priority score from the
already-updated row. -/
theorem update_found_timeout (store : List FlashCard) (fid : Nat)
    (result : String) (now : ℚ) (c : FlashCard)
    (hr : result = "TIMEOUT" ∨ result = "ESCAPE")
    (h : findCard store fid = some c) :
    findCard (update_flashcard_after_review store fid result now) fid =
      some (let c1 := { c with last_reviewed_at := some now,
                               review_count := c.review_count + 1 }
            { c1 with priority_score := _calculate_priority_score c1 now }) := by
  have hfind1 : findCard (updateCard store fid
      (fun x => { x with last_reviewed_at := some now,
                         review_count := c.review_count + 1 })) fid =
      some { c with last_reviewed_at := some now,
                    review_count := c.review_count + 1 } := by
    have key := findCard_updateCard store fid
      (fun x => { x with last_reviewed_at := some now,
                         review_count := c.review_count + 1 })
      (fun _ => rfl)
    rw [key, h]; rfl
  rcases hr with hr | hr <;>
  · subst hr
    simp only [update_flashcard_after_review, h, reduceIte, String.reduceEq]
    rw [findCard_update_priority _ fid now _ hfind1]

/-- The exact row produced by the "True" branch of
`update_flashcard_after_review`. -/
theorem update_found_true (store : List FlashCard) (fid : Nat) (now : ℚ)
    (c : FlashCard) (h : findCard store fid = some c) :
    findCard (update_flashcard_after_review store fid "True" now) fid =
      some (let c1 := { c with stage_id := min (c.stage_id + 1) 4,
                               correct := some true,
                               last_reviewed_at := some now,
                               next_review_time :=
                                 some (now + _calculate_next_interval c "True"),
                               review_count := c.review_count + 1,
                               correct_count := c.correct_count + 1,
                               interval_hours := _calculate_next_interval c "True" }
            { c1 with priority_score := _calculate_priority_score c1 now }) := by
  have hfind1 : findCard (updateCard store fid
      (fun x => { x with stage_id := min (c.stage_id + 1) 4,
                         correct := some true,
                         last_reviewed_at := some now,
                         next_review_time :=
                           some (now + _calculate_next_interval c "True"),
                         review_count := c.review_count + 1,
                         correct_count := c.correct_count + 1,
                         interval_hours := _calculate_next_interval c "True" })) fid =
      some { c with stage_id := min (c.stage_id + 1) 4,
                    correct := some true,
                    last_reviewed_at := some now,
                    next_review_time :=
                      some (now + _calculate_next_interval c "True"),
                    review_count := c.review_count + 1,
                    correct_count := c.correct_count + 1,
                    interval_hours := _calculate_next_interval c "True" } := by
    have key := findCard_updateCard store fid
      (fun x => { x with stage_id := min (c.stage_id + 1) 4,
                         correct := some true,
                         last_reviewed_at := some now,
                         next_review_time :=
                           some (now + _calculate_next_interval c "True"),
                         review_count := c.review_count + 1,
                         correct_count := c.correct_count + 1,
                         interval_hours := _calculate_next_interval c "True" })
      (fun _ => rfl)
    rw [key, h]; rfl
  simp only [update_flashcard_after_review, h, reduceIte, String.reduceEq]
  rw [findCard_update_priority _ fid now _ hfind1]

/-- The exact row produced by the "False" branch of
`update_flashcard_after_review`. -/
theorem update_found_false (store : List FlashCard) (fid : Nat) (now : ℚ)
    (c : FlashCard) (h : findCard store fid = some c) :
    findCard (update_flashcard_after_review store fid "False" now) fid =
      some (let c1 := { c with correct := some false,
                               last_reviewed_at := some now,
                               next_review_time :=
                                 some (now + _calculate_next_interval c "False"),
                               review_count := c.review_count + 1,
                               wrong_count := c.wrong_count + 1,
                               interval_hours := _calculate_next_interval c "False" }
            { c1 with priority_score := _calculate_priority_score c1 now }) := by
  have hfind1 : findCard (updateCard store fid
      (fun x => { x with correct := some false,
                         last_reviewed_at := some now,
                         next_review_time :=
                           some (now + _calculate_next_interval c "False"),
                         review_count := c.review_count + 1,
                         wrong_count := c.wrong_count + 1,
                         interval_hours := _calculate_next_interval c "False" })) fid =
      some { c with correct := some false,
                    last_reviewed_at := some now,
                    next_review_time :=
                      some (now + _calculate_next_interval c "False"),
                    review_count := c.review_count + 1,
                    wrong_count := c.wrong_count + 1,
                    interval_hours := _calculate_next_interval c "False" } := by
    have key := findCard_updateCard store fid
      (fun x => { x with correct := some false,
                         last_reviewed_at := some now,
                         next_review_time :=
                           some (now + _calculate_next_interval c "False"),
                         review_count := c.review_count + 1,
                         wrong_count := c.wrong_count + 1,
                         interval_hours := _calculate_next_interval c "False" })
      (fun _ => rfl)
    rw [key, h]; rfl
  simp only [update_flashcard_after_review, h, reduceIte, String.reduceEq]
  rw [findCard_update_priority _ fid now _ hfind1]

/-- The exact row produced by the fallthrough branch (any result string
other than "True"/"False"/"TIMEOUT"/"ESCAPE"): no SQL UPDATE runs, only the
cached priority score is recomputed from the unchanged row. -/
theorem update_found_other (store : List FlashCard) (fid : Nat)
    (result : String) (now : ℚ) (c : FlashCard)
    (h1 : result ≠ "True") (h2 : result ≠ "False")
    (h3 : result ≠ "TIMEOUT") (h4 : result ≠ "ESCAPE")
    (h : findCard store fid = some c) :
    findCard (update_flashcard_after_review store fid result now) fid =
      some { c with priority_score := _calculate_priority_score c now } := by
  simp only [update_flashcard_after_review, h, if_neg h3, if_neg h4, if_neg h1,
    if_neg h2]
  rw [findCard_update_priority _ fid now _ h]

/-- Error taxonomy named by the spec for the item store.  The source of
`update_flashcard_after_review` never constructs any such error. -/
inductive DbError where
  | NotFoundError (flashcard_id : Nat) : DbError
deriving DecidableEq

/-- Exit status of a call to `update_flashcard_after_review`: every path of
the source ends in a plain `return` (in particular the missing-id path
`if not row: return`), so the call always terminates normally.  A normal
Python return is `Except.ok` carrying the resulting store; a raised
exception would be `Except.error`. -/
def update_flashcard_after_review_run (store : List FlashCard)
    (flashcard_id : Nat) (result : String) (now : ℚ) :
    Except DbError (List FlashCard) :=
  Except.ok (update_flashcard_after_review store flashcard_id result now)

/-- Modelled from the spec: `applyOutcome(id, newState)` "Fails with
`NotFoundError` if the id no longer exists"; on a present id it performs
the source update.  Stated for comparison with the behaviour embedded from
the source in `update_flashcard_after_review_run`. -/
def applyOutcome_spec (store : List FlashCard) (flashcard_id : Nat)
    (result : String) (now : ℚ) : Except DbError (List FlashCard) :=
  match findCard store flashcard_id with
  | none => Except.error (DbError.NotFoundError flashcard_id)
  | some _ => Except.ok (update_flashcard_after_review store flashcard_id result now)

/-- `applyOutcomes`: feed a sequence of (result, now) pairs for one item
through `update_flashcard_after_review`, as the orchestrator's step 4 does
per item across sessions. -/
def applyOutcomes (store : List FlashCard) (fid : Nat)
    (rs : List (String × ℚ)) : List FlashCard :=
  rs.foldl (fun s p => update_flashcard_after_review s fid p.1 p.2) store

theorem applyOutcomes_nil (store : List FlashCard) (fid : Nat) :
    applyOutcomes store fid [] = store := rfl

theorem applyOutcomes_cons (store : List FlashCard) (fid : Nat)
    (p : String × ℚ) (rs : List (String × ℚ)) :
    applyOutcomes store fid (p :: rs) =
      applyOutcomes (update_flashcard_after_review store fid p.1 p.2) fid rs := rfl

/-- One recognized outcome: how the stage of the found row moves. -/
theorem update_step_stage (store : List FlashCard) (fid : Nat) (r : String)
    (now : ℚ) (c : FlashCard) (h : findCard store fid = some c)
    (hr : r = "True" ∨ r = "False" ∨ r = "TIMEOUT" ∨ r = "ESCAPE") :
    ∃ c', findCard (update_flashcard_after_review store fid r now) fid = some c' ∧
      (if r = "True" then c'.stage_id = min (c.stage_id + 1) 4
       else c'.stage_id = c.stage_id) := by
  rcases hr with hr | hr | hr | hr <;> subst hr
  · exact ⟨_, update_found_true store fid now c h, by simp⟩
  · exact ⟨_, update_found_false store fid now c h, by simp⟩
  · exact ⟨_, update_found_timeout store fid "TIMEOUT" now c (Or.inl rfl) h, by simp⟩
  · exact ⟨_, update_found_timeout store fid "ESCAPE" now c (Or.inr rfl) h, by simp⟩

/-- One recognized outcome: how the counters of the found row move. -/
theorem update_step_counts (store : List FlashCard) (fid : Nat) (r : String)
    (now : ℚ) (c : FlashCard) (h : findCard store fid = some c)
    (hr : r = "True" ∨ r = "False" ∨ r = "TIMEOUT" ∨ r = "ESCAPE") :
    ∃ c', findCard (update_flashcard_after_review store fid r now) fid = some c' ∧
      c'.review_count = c.review_count + 1 ∧
      c'.correct_count + c'.wrong_count =
        c.correct_count + c.wrong_count +
          (if r = "TIMEOUT" ∨ r = "ESCAPE" then 0 else 1) := by
  rcases hr with hr | hr | hr | hr <;> subst hr
  · exact ⟨_, update_found_true store fid now c h, rfl, by simp; omega⟩
  · exact ⟨_, update_found_false store fid now c h, rfl, by simp; omega⟩
  · exact ⟨_, update_found_timeout store fid "TIMEOUT" now c (Or.inl rfl) h, rfl, by simp⟩
  · exact ⟨_, update_found_timeout store fid "ESCAPE" now c (Or.inr rfl) h, rfl, by simp⟩

/-- Along any sequence of recognized outcomes, the found row keeps
existing and its stage stays within 1..4. -/
theorem applyOutcomes_stage_bounds (fid : Nat) :
    ∀ (rs : List (String × ℚ)) (store : List FlashCard) (c : FlashCard),
    findCard store fid = some c → 1 ≤ c.stage_id → c.stage_id ≤ 4 →
    (∀ p ∈ rs, p.1 = "True" ∨ p.1 = "False" ∨ p.1 = "TIMEOUT" ∨ p.1 = "ESCAPE") →
    ∃ c', findCard (applyOutcomes store fid rs) fid = some c' ∧
      1 ≤ c'.stage_id ∧ c'.stage_id ≤ 4 := by
  intro rs
  induction rs with
  | nil => exact fun store c h h1 h4 _ => ⟨c, h, h1, h4⟩
  | cons p rest ih =>
      intro store c h h1 h4 hall
      obtain ⟨c₁, hc₁, hstage⟩ :=
        update_step_stage store fid p.1 p.2 c h (hall p (by simp))
      have hb : 1 ≤ c₁.stage_id ∧ c₁.stage_id ≤ 4 := by
        by_cases hp : p.1 = "True"
        · rw [if_pos hp] at hstage; omega
        · rw [if_neg hp] at hstage; omega
      rw [applyOutcomes_cons]
      exact ih _ c₁ hc₁ hb.1 hb.2 (fun q hq => hall q (by simp [hq]))

/-- Along any sequence of recognized outcomes, `review_count` grows by the
sequence length, and graded counters plus the number of non-answers
account for all of it. -/
theorem applyOutcomes_counts (fid : Nat) :
    ∀ (rs : List (String × ℚ)) (store : List FlashCard) (c : FlashCard),
    findCard store fid = some c →
    (∀ p ∈ rs, p.1 = "True" ∨ p.1 = "False" ∨ p.1 = "TIMEOUT" ∨ p.1 = "ESCAPE") →
    ∃ c', findCard (applyOutcomes store fid rs) fid = some c' ∧
      c'.review_count = c.review_count + rs.length ∧
      c'.correct_count + c'.wrong_count +
        (rs.filter (fun p => p.1 == "TIMEOUT" || p.1 == "ESCAPE")).length =
      c.correct_count + c.wrong_count + rs.length := by
  intro rs
  induction rs with
  | nil => exact fun store c h _ => ⟨c, h, by simp, by simp⟩
  | cons p rest ih =>
      intro store c h hall
      obtain ⟨c₁, hc₁, hrev, hcw⟩ :=
        update_step_counts store fid p.1 p.2 c h (hall p (by simp))
      obtain ⟨c', hc', hrev', hcw'⟩ :=
        ih (update_flashcard_after_review store fid p.1 p.2) c₁ hc₁
          (fun q hq => hall q (by simp [hq]))
      refine ⟨c', by rw [applyOutcomes_cons]; exact hc', ?_, ?_⟩
      · simp only [List.length_cons]; omega
      have hfc : ((p :: rest).filter
          (fun q => q.1 == "TIMEOUT" || q.1 == "ESCAPE")).length =
        (rest.filter (fun q => q.1 == "TIMEOUT" || q.1 == "ESCAPE")).length +
          (if p.1 = "TIMEOUT" ∨ p.1 = "ESCAPE" then 1 else 0) := by
        by_cases hp : p.1 = "TIMEOUT" ∨ p.1 = "ESCAPE"
        · have hb : (p.1 == "TIMEOUT" || p.1 == "ESCAPE") = true := by
            rcases hp with hp | hp <;> simp [hp]
          simp [List.filter_cons, hb, hp]
        · have hb : (p.1 == "TIMEOUT" || p.1 == "ESCAPE") = false := by
            push_neg at hp
            simp [hp.1, hp.2]
          simp [List.filter_cons, hb, hp]
      rw [hfc]
      simp only [List.length_cons]
      by_cases hp : p.1 = "TIMEOUT" ∨ p.1 = "ESCAPE"
      · rw [if_pos hp] at hcw ⊢
        omega
      · rw [if_neg hp] at hcw ⊢
        omega

/-- Claim C1: for a stored card with due time `T`, a "TIMEOUT" (Timeout)
or "ESCAPE" (Cancelled) outcome leaves `next_review_time` equal to `T`
exactly and leaves stage, the correct flag, both graded counters, the
interval and all content fields unchanged, while `review_count` grows by
exactly 1; only `last_reviewed_at` and the cached `priority_score` may
additionally change. -/
theorem C1_nonanswer_frame (store : List FlashCard) (fid : Nat)
    (result : String) (now : ℚ) (c : FlashCard) (T : Option ℚ)
    (hr : result = "TIMEOUT" ∨ result = "ESCAPE")
    (h : findCard store fid = some c)
    (hT : c.next_review_time = T) :
    ∃ c', findCard (update_flashcard_after_review store fid result now) fid = some c' ∧
      c'.next_review_time = T ∧
      c'.stage_id = c.stage_id ∧
      c'.correct = c.correct ∧
      c'.correct_count = c.correct_count ∧
      c'.wrong_count = c.wrong_count ∧
      c'.interval_hours = c.interval_hours ∧
      c'.review_count = c.review_count + 1 ∧
      c'.id = c.id ∧ c'.word = c.word ∧ c'.meaning = c.meaning ∧
      c'.example_ = c.example_ ∧ c'.tag = c.tag ∧
      c'.created_at = c.created_at := by
  refine ⟨_, update_found_timeout store fid result now c hr h,
    ?_, rfl, rfl, rfl, rfl, rfl, rfl, rfl, rfl, rfl, rfl, rfl, rfl⟩
  simpa using hT

/-- Witness for C1: a concrete one-card store, "TIMEOUT" at time 2. -/
theorem C1_nonanswer_frame_witness :
    let c0 : FlashCard :=
      { id := 1, word := "w", meaning := "m", example_ := "", tag := "",
        stage_id := 2, correct := some true, created_at := some 0,
        last_reviewed_at := some 0, next_review_time := some 3,
        review_count := 4, correct_count := 3, wrong_count := 1,
        priority_score := 80, interval_hours := 2 }
    ("TIMEOUT" = "TIMEOUT" ∨ "TIMEOUT" = "ESCAPE") ∧
    findCard [c0] 1 = some c0 ∧
    ∃ c', findCard (update_flashcard_after_review [c0] 1 "TIMEOUT" 2) 1 = some c' ∧
      c'.next_review_time = some 3 ∧
      c'.stage_id = c0.stage_id ∧
      c'.correct = c0.correct ∧
      c'.correct_count = c0.correct_count ∧
      c'.wrong_count = c0.wrong_count ∧
      c'.interval_hours = c0.interval_hours ∧
      c'.review_count = c0.review_count + 1 ∧
      c'.id = c0.id ∧ c'.word = c0.word ∧ c'.meaning = c0.meaning ∧
      c'.example_ = c0.example_ ∧ c'.tag = c0.tag ∧
      c'.created_at = c0.created_at :=
  ⟨Or.inl rfl, rfl,
    C1_nonanswer_frame [_] 1 "TIMEOUT" 2 _ (some 3) (Or.inl rfl) rfl rfl⟩

/-- Claim C10: for a stored card and any result string other than "True",
"False", "TIMEOUT" and "ESCAPE", the update leaves every persisted field
of the row unchanged (in particular `review_count` is not incremented and
`last_reviewed_at` is not stamped) and only recomputes the cached
`priority_score`. -/
theorem C10_unrecognized_result_frame (store : List FlashCard) (fid : Nat)
    (result : String) (now : ℚ) (c : FlashCard)
    (h1 : result ≠ "True") (h2 : result ≠ "False")
    (h3 : result ≠ "TIMEOUT") (h4 : result ≠ "ESCAPE")
    (h : findCard store fid = some c) :
    findCard (update_flashcard_after_review store fid result now) fid =
      some { c with priority_score := _calculate_priority_score c now } := by
  simp only [update_flashcard_after_review, h, if_neg h3, if_neg h4, if_neg h1,
    if_neg h2]
  rw [findCard_update_priority _ fid now _ h]

/-- Witness for C10: the unrecognized tag "SKIP" on a concrete card. -/
theorem C10_unrecognized_result_frame_witness :
    let c0 : FlashCard :=
      { id := 1, word := "w", meaning := "m", example_ := "", tag := "",
        stage_id := 1, correct := none, created_at := some 0,
        last_reviewed_at := none, next_review_time := some 0,
        review_count := 0, correct_count := 0, wrong_count := 0,
        priority_score := 100, interval_hours := 1/2 }
    findCard [c0] 1 = some c0 ∧
    findCard (update_flashcard_after_review [c0] 1 "SKIP" 1) 1 =
      some { c0 with priority_score := _calculate_priority_score c0 1 } :=
  ⟨rfl, C10_unrecognized_result_frame [_] 1 "SKIP" 1 _
    (by decide) (by decide) (by decide) (by decide) rfl⟩

/-- Counterexample to claim C7 as stated: on the empty store (id 1 absent)
the source update returns normally with the store unchanged — it does not
fail with `NotFoundError`, while the spec-modelled `applyOutcome` does. -/
theorem C7_counterexample :
    update_flashcard_after_review_run [] 1 "True" 0 = Except.ok [] ∧
    applyOutcome_spec [] 1 "True" 0 =
      Except.error (DbError.NotFoundError 1) := by
  constructor <;> rfl

/-- Claim C7 as amended: applying an outcome to an id not present in the
store is a silent no-op — the call returns normally (no error the caller
can observe) and the store is left unchanged. -/
theorem C7_missing_id_noop (store : List FlashCard) (fid : Nat)
    (result : String) (now : ℚ) (h : findCard store fid = none) :
    update_flashcard_after_review_run store fid result now =
      Except.ok store := by
  simp only [update_flashcard_after_review_run, update_flashcard_after_review, h]

/-- Witness for amended C7 on a concrete store missing id 2. -/
theorem C7_missing_id_noop_witness :
    let c0 : FlashCard :=
      { id := 1, word := "w", meaning := "m", example_ := "", tag := "",
        stage_id := 1, correct := none, created_at := none,
        last_reviewed_at := none, next_review_time := some 0,
        review_count := 0, correct_count := 0, wrong_count := 0,
        priority_score := 100, interval_hours := 1/2 }
    findCard [c0] 2 = none ∧
    update_flashcard_after_review_run [c0] 2 "False" 5 = Except.ok [c0] :=
  ⟨by decide, C7_missing_id_noop [_] 2 "False" 5 (by decide)⟩

/-- Claim C2: a "True" (Correct) outcome sets the stage of the stored card
to min(stage+1, 4); "False", "TIMEOUT" and "ESCAPE" leave it unchanged;
consequently along any sequence of recognized outcomes the stage moves by
at most 1 per step, never decreases on Correct, and stays in 1..4. -/
theorem C2_stage_machine (store : List FlashCard) (fid : Nat) (now : ℚ)
    (c : FlashCard) (h : findCard store fid = some c)
    (h1 : 1 ≤ c.stage_id) (h4 : c.stage_id ≤ 4) :
    (∃ c', findCard (update_flashcard_after_review store fid "True" now) fid =
        some c' ∧
      c'.stage_id = min (c.stage_id + 1) 4 ∧
      c.stage_id ≤ c'.stage_id ∧ c'.stage_id ≤ c.stage_id + 1) ∧
    (∀ r, r = "False" ∨ r = "TIMEOUT" ∨ r = "ESCAPE" →
      ∃ c', findCard (update_flashcard_after_review store fid r now) fid =
          some c' ∧
        c'.stage_id = c.stage_id) ∧
    (∀ rs : List (String × ℚ),
      (∀ p ∈ rs, p.1 = "True" ∨ p.1 = "False" ∨ p.1 = "TIMEOUT" ∨ p.1 = "ESCAPE") →
      ∃ c', findCard (applyOutcomes store fid rs) fid = some c' ∧
        1 ≤ c'.stage_id ∧ c'.stage_id ≤ 4) := by
  refine ⟨?_, ?_, ?_⟩
  · obtain ⟨c', hc', hs⟩ := update_step_stage store fid "True" now c h (Or.inl rfl)
    rw [if_pos rfl] at hs
    exact ⟨c', hc', hs, by omega, by omega⟩
  · intro r hr
    have hne : r ≠ "True" := by
      rcases hr with hr | hr | hr <;> subst hr <;> decide
    obtain ⟨c', hc', hs⟩ := update_step_stage store fid r now c h (Or.inr hr)
    rw [if_neg hne] at hs
    exact ⟨c', hc', hs⟩
  · intro rs hall
    exact applyOutcomes_stage_bounds fid rs store c h h1 h4 hall

/-- Witness for C2: a concrete stage-4 card answered "True" stays at 4. -/
theorem C2_stage_machine_witness :
    findCard [sampleCard 1 4 (some true) (some 0) 9 8 1 40 168] 1 =
      some (sampleCard 1 4 (some true) (some 0) 9 8 1 40 168) ∧
    1 ≤ (sampleCard 1 4 (some true) (some 0) 9 8 1 40 168).stage_id ∧
    (sampleCard 1 4 (some true) (some 0) 9 8 1 40 168).stage_id ≤ 4 ∧
    (∃ c', findCard (update_flashcard_after_review
        [sampleCard 1 4 (some true) (some 0) 9 8 1 40 168] 1 "True" 0) 1 =
        some c' ∧
      c'.stage_id =
        min ((sampleCard 1 4 (some true) (some 0) 9 8 1 40 168).stage_id + 1) 4 ∧
      (sampleCard 1 4 (some true) (some 0) 9 8 1 40 168).stage_id ≤ c'.stage_id ∧
      c'.stage_id ≤
        (sampleCard 1 4 (some true) (some 0) 9 8 1 40 168).stage_id + 1) :=
  ⟨rfl, by decide, by decide,
    (C2_stage_machine [sampleCard 1 4 (some true) (some 0) 9 8 1 40 168] 1 0
      (sampleCard 1 4 (some true) (some 0) 9 8 1 40 168) rfl
      (by decide) (by decide)).1⟩

/-- Claim C6: along any sequence of N recognized outcomes on one item,
`review_count` ends at its initial value plus N regardless of the outcome
mix, and the invariant
`review_count = correct_count + wrong_count + (non-answers so far)` is
preserved (with `t0` the initial number of non-answers already absorbed in
the counters). -/
theorem C6_counter_conservation (store : List FlashCard) (fid : Nat)
    (rs : List (String × ℚ)) (c : FlashCard) (t0 : Nat)
    (h : findCard store fid = some c)
    (hall : ∀ p ∈ rs, p.1 = "True" ∨ p.1 = "False" ∨ p.1 = "TIMEOUT" ∨ p.1 = "ESCAPE")
    (hinv : c.review_count = c.correct_count + c.wrong_count + t0) :
    ∃ c', findCard (applyOutcomes store fid rs) fid = some c' ∧
      c'.review_count = c.review_count + rs.length ∧
      c'.review_count = c'.correct_count + c'.wrong_count +
        (t0 + (rs.filter (fun p => p.1 == "TIMEOUT" || p.1 == "ESCAPE")).length) := by
  obtain ⟨c', hc', hrev, hcw⟩ := applyOutcomes_counts fid rs store c h hall
  exact ⟨c', hc', hrev, by omega⟩

/-- Witness for C6: a fresh card given "True" then "TIMEOUT". -/
theorem C6_counter_conservation_witness :
    let c0 : FlashCard :=
      { id := 1, word := "w", meaning := "m", example_ := "", tag := "",
        stage_id := 1, correct := none, created_at := none,
        last_reviewed_at := none, next_review_time := some 0,
        review_count := 0, correct_count := 0, wrong_count := 0,
        priority_score := 100, interval_hours := 1/2 }
    let rs : List (String × ℚ) := [("True", 0), ("TIMEOUT", 1)]
    findCard [c0] 1 = some c0 ∧
    c0.review_count = c0.correct_count + c0.wrong_count + 0 ∧
    ∃ c', findCard (applyOutcomes [c0] 1 rs) 1 = some c' ∧
      c'.review_count = c0.review_count + rs.length ∧
      c'.review_count = c'.correct_count + c'.wrong_count +
        (0 + (rs.filter (fun p => p.1 == "TIMEOUT" || p.1 == "ESCAPE")).length) :=
  ⟨rfl, rfl,
    C6_counter_conservation [_] 1 [("True", 0), ("TIMEOUT", 1)] _ 0 rfl
      (by decide) rfl⟩

/-- Claim C3: `_calculate_next_interval` with the per-stage base
`{1:0.5, 2:2, 3:24, 4:168}` returns base·2 for "True" at stage ≤ 2,
base·1.5 for "True" at stage ≥ 3, base·0.5 for "False", and the base
unmodified for "TIMEOUT" and "ESCAPE". -/
theorem C3_interval_function (c : FlashCard)
    (h1 : 1 ≤ c.stage_id) (h4 : c.stage_id ≤ 4) :
    (_calculate_next_interval c "True" =
      (if c.stage_id = 1 then (1/2 : ℚ) else if c.stage_id = 2 then 2
       else if c.stage_id = 3 then 24 else 168) *
      (if c.stage_id ≤ 2 then 2 else 3/2)) ∧
    (_calculate_next_interval c "False" =
      (if c.stage_id = 1 then (1/2 : ℚ) else if c.stage_id = 2 then 2
       else if c.stage_id = 3 then 24 else 168) * (1/2)) ∧
    (_calculate_next_interval c "TIMEOUT" =
      (if c.stage_id = 1 then (1/2 : ℚ) else if c.stage_id = 2 then 2
       else if c.stage_id = 3 then 24 else 168)) ∧
    (_calculate_next_interval c "ESCAPE" =
      (if c.stage_id = 1 then (1/2 : ℚ) else if c.stage_id = 2 then 2
       else if c.stage_id = 3 then 24 else 168)) := by
  have hs : c.stage_id = 1 ∨ c.stage_id = 2 ∨ c.stage_id = 3 ∨ c.stage_id = 4 := by omega
  rcases hs with hs | hs | hs | hs <;>
    simp [_calculate_next_interval, base_intervals, hs]

/-- Witness for C3 at a concrete stage-1 card. -/
theorem C3_interval_function_witness :
    let c : FlashCard :=
      { id := 1, word := "w", meaning := "m", example_ := "", tag := "",
        stage_id := 1, correct := none, created_at := none,
        last_reviewed_at := none, next_review_time := some 0,
        review_count := 0, correct_count := 0, wrong_count := 0,
        priority_score := 100, interval_hours := 1/2 }
    _calculate_next_interval c "True" =
      (if c.stage_id = 1 then (1/2 : ℚ) else if c.stage_id = 2 then 2
       else if c.stage_id = 3 then 24 else 168) *
      (if c.stage_id ≤ 2 then 2 else 3/2) :=
  (C3_interval_function _ (by decide) (by decide)).1

/-- Claim C4: the priority score decomposes as
base + overdueBonus + wrongPenaltyBoost + freshnessBonus with
base = {1:100, 2:80, 3:60, 4:40}[stage],
overdueBonus = min(5·max(now − nextDueAt, 0), 50) (0 with no due time),
wrongPenaltyBoost = 30 iff the last recorded outcome is Incorrect, and
freshnessBonus = 20 iff stage = 1. -/
theorem C4_priority_score (c : FlashCard) (now : ℚ)
    (h1 : 1 ≤ c.stage_id) (h4 : c.stage_id ≤ 4) :
    _calculate_priority_score c now =
      (if c.stage_id = 1 then (100 : ℚ) else if c.stage_id = 2 then 80
       else if c.stage_id = 3 then 60 else 40)
      + (match c.next_review_time with
         | none => 0
         | some t => min (5 * max (now - t) 0) 50)
      + (if c.correct = some false then 30 else 0)
      + (if c.stage_id = 1 then 20 else 0) := by
  have hbase : stage_priority c.stage_id =
      (if c.stage_id = 1 then (100 : ℚ) else if c.stage_id = 2 then 80
       else if c.stage_id = 3 then 60 else 40) := by
    have hs : c.stage_id = 1 ∨ c.stage_id = 2 ∨ c.stage_id = 3 ∨ c.stage_id = 4 := by omega
    rcases hs with hs | hs | hs | hs <;> simp [stage_priority, hs]
  have hbonus : (match c.next_review_time with
      | none => (0 : ℚ)
      | some next_review =>
          if next_review ≤ now then min ((now - next_review) * 5) 50 else 0) =
      (match c.next_review_time with
       | none => (0 : ℚ)
       | some t => min (5 * max (now - t) 0) 50) := by
    cases hnr : c.next_review_time with
    | none => rfl
    | some t =>
        by_cases ht : t ≤ now
        · have hmax : max (now - t) 0 = now - t := by
            apply max_eq_left; linarith
          simp [ht, hmax, mul_comm]
        · have hmax : max (now - t) 0 = 0 := by
            apply max_eq_right; linarith
          have : min ((5 : ℚ) * 0) 50 = 0 := by norm_num
          simp [ht, hmax, this]
  simp only [_calculate_priority_score, hbase, hbonus]

/-- Witness for C4 at a concrete overdue stage-2 card with a wrong last
answer, evaluated at `now = 1`. -/
theorem C4_priority_score_witness :
    let c : FlashCard :=
      { id := 1, word := "w", meaning := "m", example_ := "", tag := "",
        stage_id := 2, correct := some false, created_at := none,
        last_reviewed_at := none, next_review_time := some 0,
        review_count := 1, correct_count := 0, wrong_count := 1,
        priority_score := 0, interval_hours := 2 }
    _calculate_priority_score c 1 =
      (if c.stage_id = 1 then (100 : ℚ) else if c.stage_id = 2 then 80
       else if c.stage_id = 3 then 60 else 40)
      + (match c.next_review_time with
         | none => 0
         | some t => min (5 * max ((1 : ℚ) - t) 0) 50)
      + (if c.correct = some false then 30 else 0)
      + (if c.stage_id = 1 then 20 else 0) :=
  C4_priority_score _ 1 (by decide) (by decide)

/-- The SQL due test `next_review_time <= now`; a NULL due time never
satisfies an SQL comparison, so such rows are excluded. -/
def isDue (c : FlashCard) (now : ℚ) : Bool :=
  match c.next_review_time with
  | some t => decide (t ≤ now)
  | none => false

/-- `_update_all_priority_scores`: recompute and store the priority score
of every row. -/
def _update_all_priority_scores (store : List FlashCard) (now : ℚ) :
    List FlashCard :=
  store.map (fun c => { c with priority_score := _calculate_priority_score c now })

/-- SQL ascending comparison on a nullable timestamp column (NULLs sort
first in SQLite ASC ordering; due rows always carry a value). -/
def optTimeLe : Option ℚ → Option ℚ → Bool
  | none, _ => true
  | some _, none => false
  | some a, some b => decide (a ≤ b)

/-- The `ORDER BY priority_score DESC, stage_id ASC, next_review_time ASC`
comparison of `get_due_flashcards`. -/
def dueLe (a b : FlashCard) : Bool :=
  if a.priority_score = b.priority_score then
    if a.stage_id = b.stage_id then
      optTimeLe a.next_review_time b.next_review_time
    else decide (a.stage_id ≤ b.stage_id)
  else decide (b.priority_score ≤ a.priority_score)

/-- `dueLe` as a relation, for use with the sorting library. -/
def DueLE (a b : FlashCard) : Prop := dueLe a b = true

instance : DecidableRel DueLE :=
  fun a b => inferInstanceAs (Decidable (dueLe a b = true))

theorem optTimeLe_total (x y : Option ℚ) :
    optTimeLe x y = true ∨ optTimeLe y x = true := by
  cases x <;> cases y <;> simp [optTimeLe]
  exact le_total _ _

theorem optTimeLe_trans (x y z : Option ℚ) (h1 : optTimeLe x y = true)
    (h2 : optTimeLe y z = true) : optTimeLe x z = true := by
  cases x <;> cases y <;> cases z <;> simp [optTimeLe] at h1 h2 ⊢
  exact le_trans h1 h2

/-- Unfolding of the three-key lexicographic comparison. -/
theorem dueLe_eq_true_iff (a b : FlashCard) : dueLe a b = true ↔
    (b.priority_score < a.priority_score ∨
     (a.priority_score = b.priority_score ∧
      (a.stage_id < b.stage_id ∨
       (a.stage_id = b.stage_id ∧
        optTimeLe a.next_review_time b.next_review_time = true)))) := by
  unfold dueLe
  by_cases hp : a.priority_score = b.priority_score
  · by_cases hs : a.stage_id = b.stage_id
    · rw [if_pos hp, if_pos hs]
      simp [hp, hs]
    · rw [if_pos hp, if_neg hs]
      simp only [decide_eq_true_eq, hp, lt_self_iff_false, false_or, true_and]
      constructor
      · intro hle
        exact Or.inl (by omega)
      · intro hor
        rcases hor with hor | hor
        · omega
        · exact absurd hor.1 hs
  · rw [if_neg hp]
    simp only [decide_eq_true_eq, hp, false_and, or_false]
    constructor
    · intro hle
      exact lt_of_le_of_ne hle (fun hc => hp hc.symm)
    · intro hlt
      exact le_of_lt hlt

instance : IsTotal FlashCard DueLE := by
  constructor
  intro a b
  by_cases hp : a.priority_score = b.priority_score
  · by_cases hs : a.stage_id = b.stage_id
    · rcases optTimeLe_total a.next_review_time b.next_review_time with h | h
      · exact Or.inl ((dueLe_eq_true_iff a b).2
          (Or.inr ⟨hp, Or.inr ⟨hs, h⟩⟩))
      · exact Or.inr ((dueLe_eq_true_iff b a).2
          (Or.inr ⟨hp.symm, Or.inr ⟨hs.symm, h⟩⟩))
    · have hlt : a.stage_id < b.stage_id ∨ b.stage_id < a.stage_id := by omega
      rcases hlt with h | h
      · exact Or.inl ((dueLe_eq_true_iff a b).2 (Or.inr ⟨hp, Or.inl h⟩))
      · exact Or.inr ((dueLe_eq_true_iff b a).2 (Or.inr ⟨hp.symm, Or.inl h⟩))
  · rcases lt_or_gt_of_ne hp with h | h
    · exact Or.inr ((dueLe_eq_true_iff b a).2 (Or.inl h))
    · exact Or.inl ((dueLe_eq_true_iff a b).2 (Or.inl h))

instance : IsTrans FlashCard DueLE := by
  constructor
  intro a b c hab hbc
  rw [DueLE, dueLe_eq_true_iff] at hab hbc ⊢
  rcases hab with hab | ⟨hpab, hab⟩
  · rcases hbc with hbc | ⟨hpbc, hbc⟩
    · exact Or.inl (lt_trans hbc hab)
    · exact Or.inl (hpbc ▸ hab)
  · rcases hbc with hbc | ⟨hpbc, hbc⟩
    · exact Or.inl (hpab ▸ hbc)
    · refine Or.inr ⟨hpab.trans hpbc, ?_⟩
      rcases hab with hab | ⟨hsab, hab⟩
      · rcases hbc with hbc | ⟨hsbc, _⟩
        · exact Or.inl (lt_trans hab hbc)
        · exact Or.inl (hsbc ▸ hab)
      · rcases hbc with hbc | ⟨hsbc, hbc⟩
        · exact Or.inl (hsab ▸ hbc)
        · exact Or.inr ⟨hsab.trans hsbc,
            optTimeLe_trans _ _ _ hab hbc⟩

/-- `get_due_flashcards`: refresh every cached score, keep the rows due at
`now`, order them by the three-key comparison, return the first `limit`
(`ORDER BY ... LIMIT ?`).  The sort is modelled by insertion sort, a stable
sort consistent with the SQL ordering. -/
def get_due_flashcards (store : List FlashCard) (limit : Nat) (now : ℚ) :
    List FlashCard :=
  let updated := _update_all_priority_scores store now
  (List.insertionSort DueLE (updated.filter (fun c => isDue c now))).take limit

/-- Recomputing the cached score changes no input of the score function,
so the refreshed cache agrees with a recomputation from the row itself. -/
theorem score_ignores_priority (c : FlashCard) (p now : ℚ) :
    _calculate_priority_score { c with priority_score := p } now =
      _calculate_priority_score c now := rfl

/-- Every row returned by the due query is due at `now` and carries the
freshly recomputed priority score. -/
theorem mem_get_due (store : List FlashCard) (limit : Nat) (now : ℚ)
    (x : FlashCard) (hx : x ∈ get_due_flashcards store limit now) :
    isDue x now = true ∧
    x.priority_score = _calculate_priority_score x now := by
  unfold get_due_flashcards at hx
  have hx1 : x ∈ List.insertionSort DueLE
      ((_update_all_priority_scores store now).filter (fun c => isDue c now)) :=
    List.take_subset _ _ hx
  have hx2 : x ∈ (_update_all_priority_scores store now).filter
      (fun c => isDue c now) :=
    (List.perm_insertionSort DueLE _).mem_iff.1 hx1
  rw [List.mem_filter] at hx2
  refine ⟨hx2.2, ?_⟩
  have hx3 := hx2.1
  unfold _update_all_priority_scores at hx3
  rw [List.mem_map] at hx3
  obtain ⟨c, _, hc⟩ := hx3
  rw [← hc]
  rfl

/-- The due query's output is ordered by the three-key comparison. -/
theorem get_due_sorted (store : List FlashCard) (limit : Nat) (now : ℚ) :
    (get_due_flashcards store limit now).Pairwise DueLE :=
  List.Pairwise.sublist (List.take_sublist _ _)
    (List.sorted_insertionSort DueLE _)

/-- The capped overdue bonus is monotone in the overdue amount, so a
strictly larger bonus forces a strictly larger overdue amount. -/
theorem overdue_bonus_lt (x y : ℚ)
    (h : min (x * 5) 50 < min (y * 5) 50) : x < y := by
  by_contra hc
  push_neg at hc
  have hxy : y * 5 ≤ x * 5 := by nlinarith
  have : min (y * 5) 50 ≤ min (x * 5) 50 := min_le_min hxy le_rfl
  linarith

/-- The score of a due row, spelled out. -/
theorem score_of_due (a : FlashCard) (now ta : ℚ)
    (hta : a.next_review_time = some ta) (hle : ta ≤ now) :
    _calculate_priority_score a now =
      stage_priority a.stage_id + min ((now - ta) * 5) 50 +
      (if a.correct = some false then 30 else 0) +
      (if a.stage_id = 1 then 20 else 0) := by
  simp only [_calculate_priority_score, hta]
  rw [if_pos hle]

/-- Among due rows with equal stage and agreeing wrong-answer flag and
freshly cached scores, the comparison order implies the due-time order. -/
theorem dueLe_same_stage_flag (now : ℚ) (a b : FlashCard)
    (hle : DueLE a b)
    (hs : a.stage_id = b.stage_id)
    (hw : (a.correct = some false) ↔ (b.correct = some false))
    (hda : isDue a now = true) (hdb : isDue b now = true)
    (hpa : a.priority_score = _calculate_priority_score a now)
    (hpb : b.priority_score = _calculate_priority_score b now)
    (ta tb : ℚ) (hta : a.next_review_time = some ta)
    (htb : b.next_review_time = some tb) :
    ta ≤ tb := by
  have hta' : ta ≤ now := by
    unfold isDue at hda
    rw [hta] at hda
    simpa using hda
  have htb' : tb ≤ now := by
    unfold isDue at hdb
    rw [htb] at hdb
    simpa using hdb
  have hwr : (if a.correct = some false then (30 : ℚ) else 0) =
      (if b.correct = some false then 30 else 0) := by
    by_cases hc : a.correct = some false
    · rw [if_pos hc, if_pos (hw.1 hc)]
    · rw [if_neg hc, if_neg (fun hb => hc (hw.2 hb))]
  rw [DueLE, dueLe_eq_true_iff] at hle
  rcases hle with hlt | ⟨_, hslt | ⟨_, hopt⟩⟩
  · rw [hpa, hpb, score_of_due a now ta hta hta',
      score_of_due b now tb htb htb', hs, hwr] at hlt
    have hmin : min ((now - tb) * 5) 50 < min ((now - ta) * 5) 50 := by
      linarith
    have := overdue_bonus_lt _ _ hmin
    linarith
  · omega
  · unfold optTimeLe at hopt
    rw [hta, htb] at hopt
    simpa using hopt

/-- Counterexample to claim C5 as stated: two due cards at the same stage,
id 1 due at −1 (one hour overdue), id 2 due at 0 but with a wrong last
answer.  The wrong-answer boost makes the less overdue card (id 2,
score 110) rank strictly before the more overdue one (id 1, score 85), so
the more overdue equal-stage item appears later in the returned order. -/
theorem C5_counterexample :
    get_due_flashcards
      [sampleCard 1 2 none (some (-1)) 0 0 0 0 2,
       sampleCard 2 2 (some false) (some 0) 1 0 1 0 2] 5 0 =
      [sampleCard 2 2 (some false) (some 0) 1 0 1 110 2,
       sampleCard 1 2 none (some (-1)) 0 0 0 85 2] ∧
    (sampleCard 2 2 (some false) (some 0) 1 0 1 0 2).stage_id =
      (sampleCard 1 2 none (some (-1)) 0 0 0 0 2).stage_id ∧
    ((-1 : ℚ) < 0) := by
  have hA : _calculate_priority_score
      (sampleCard 1 2 none (some (-1)) 0 0 0 0 2) 0 = 85 := by
    norm_num [_calculate_priority_score, stage_priority, sampleCard]
    decide
  have hB : _calculate_priority_score
      (sampleCard 2 2 (some false) (some 0) 1 0 1 0 2) 0 = 110 := by
    norm_num [_calculate_priority_score, stage_priority, sampleCard]
  refine ⟨?_, rfl, by norm_num⟩
  simp only [get_due_flashcards, _update_all_priority_scores, List.map_cons,
    List.map_nil, hA, hB]
  decide

/-- Claim C5 as amended: among items returned by the due query that have
equal stage AND agreeing wrong-answer flag (`correct = False` yes/no), the
item with the earlier (more overdue) due time appears no later in the
returned order. -/
theorem C5_overdue_order (store : List FlashCard) (limit : Nat) (now : ℚ)
    (i j : Nat) (hij : i < j) (ci cj : FlashCard)
    (hi : (get_due_flashcards store limit now)[i]? = some ci)
    (hj : (get_due_flashcards store limit now)[j]? = some cj)
    (hs : ci.stage_id = cj.stage_id)
    (hw : (ci.correct = some false) ↔ (cj.correct = some false))
    (ti tj : ℚ) (hti : ci.next_review_time = some ti)
    (htj : cj.next_review_time = some tj) :
    ti ≤ tj := by
  obtain ⟨hilen, hig⟩ := List.getElem?_eq_some_iff.1 hi
  obtain ⟨hjlen, hjg⟩ := List.getElem?_eq_some_iff.1 hj
  have hpair := get_due_sorted store limit now
  rw [List.pairwise_iff_get] at hpair
  have hle := hpair ⟨i, hilen⟩ ⟨j, hjlen⟩ (by simpa using hij)
  simp only [List.get_eq_getElem, hig, hjg] at hle
  have hmemi : ci ∈ get_due_flashcards store limit now := by
    rw [← hig]; exact List.getElem_mem _
  have hmemj : cj ∈ get_due_flashcards store limit now := by
    rw [← hjg]; exact List.getElem_mem _
  obtain ⟨hdi, hpi⟩ := mem_get_due store limit now ci hmemi
  obtain ⟨hdj, hpj⟩ := mem_get_due store limit now cj hmemj
  exact dueLe_same_stage_flag now ci cj hle hs hw hdi hdj hpi hpj ti tj hti htj

/-- Witness for amended C5: two equal-stage cards with no wrong flag; the
query returns the more overdue (id 1, due −1) first. -/
theorem C5_overdue_order_witness :
    (get_due_flashcards
      [sampleCard 1 2 none (some (-1)) 0 0 0 0 2,
       sampleCard 2 2 none (some 0) 0 0 0 0 2] 5 0)[0]? =
        some (sampleCard 1 2 none (some (-1)) 0 0 0 85 2) ∧
    (get_due_flashcards
      [sampleCard 1 2 none (some (-1)) 0 0 0 0 2,
       sampleCard 2 2 none (some 0) 0 0 0 0 2] 5 0)[1]? =
        some (sampleCard 2 2 none (some 0) 0 0 0 80 2) ∧
    ((-1 : ℚ) ≤ 0) := by
  have hA : _calculate_priority_score
      (sampleCard 1 2 none (some (-1)) 0 0 0 0 2) 0 = 85 := by
    norm_num [_calculate_priority_score, stage_priority, sampleCard]
    decide
  have hB : _calculate_priority_score
      (sampleCard 2 2 none (some 0) 0 0 0 0 2) 0 = 80 := by
    norm_num [_calculate_priority_score, stage_priority, sampleCard]
    decide
  have hout : get_due_flashcards
      [sampleCard 1 2 none (some (-1)) 0 0 0 0 2,
       sampleCard 2 2 none (some 0) 0 0 0 0 2] 5 0 =
      [sampleCard 1 2 none (some (-1)) 0 0 0 85 2,
       sampleCard 2 2 none (some 0) 0 0 0 80 2] := by
    simp only [get_due_flashcards, _update_all_priority_scores, List.map_cons,
      List.map_nil, hA, hB]
    decide
  refine ⟨by rw [hout]; rfl, by rw [hout]; rfl, ?_⟩
  exact C5_overdue_order
    [sampleCard 1 2 none (some (-1)) 0 0 0 0 2,
     sampleCard 2 2 none (some 0) 0 0 0 0 2] 5 0 0 1 (by omega)
    (sampleCard 1 2 none (some (-1)) 0 0 0 85 2)
    (sampleCard 2 2 none (some 0) 0 0 0 80 2)
    (by rw [hout]; rfl) (by rw [hout]; rfl) rfl Iff.rfl (-1) 0 rfl rfl

/-- `SELECT COUNT(*) FROM flashcards WHERE next_review_time <= now`. -/
def due_count (store : List FlashCard) (now : ℚ) : Nat :=
  (store.filter (fun c => isDue c now)).length

/-- `SELECT MIN(next_review_time) FROM flashcards WHERE next_review_time > now`
(SQL MIN skips NULLs and returns NULL on an empty selection). -/
def earliest_upcoming (store : List FlashCard) (now : ℚ) : Option ℚ :=
  ((store.filterMap (fun c => c.next_review_time)).filter
    (fun t => decide (now < t))).min?

/-- `calculate_next_test_interval` from `database_manager.py`, in minutes.
Python's `int(x)` truncation agrees with the floor here because the value
is nonnegative (`next_due > now`). -/
def calculate_next_test_interval (store : List FlashCard) (now : ℚ) : Int :=
  let dc := due_count store now
  if dc = 0 then
    match earliest_upcoming store now with
    | some next_due => min (max 5 ⌊(next_due - now) * 60⌋) 60
    | none => 5
  else if dc ≤ 5 then 5
  else 3

/-- Claim C9: the next-check delay is always a positive number of minutes;
with nothing stored it is the fixed default 5; with no due item and an
upcoming due time `t` it is the whole number of minutes until `t` clamped
into [5, 60]; with at least one due item it is the tier value
`if due ≤ 5 then 5 else 3`, so at most 5 due items never yield a shorter
delay than more than 5. -/
theorem C9_next_check_delay (store : List FlashCard) (now : ℚ) :
    (0 < calculate_next_test_interval store now) ∧
    (store = [] → calculate_next_test_interval store now = 5) ∧
    (∀ t : ℚ, due_count store now = 0 → earliest_upcoming store now = some t →
      calculate_next_test_interval store now = min (max ⌊(t - now) * 60⌋ 5) 60) ∧
    (1 ≤ due_count store now →
      calculate_next_test_interval store now =
        (if due_count store now ≤ 5 then 5 else 3)) ∧
    (∀ (store2 : List FlashCard) (now2 : ℚ),
      1 ≤ due_count store now → due_count store now ≤ 5 →
      5 < due_count store2 now2 →
      calculate_next_test_interval store2 now2 ≤
        calculate_next_test_interval store now) := by
  have htier : ∀ (s : List FlashCard) (n : ℚ), 1 ≤ due_count s n →
      calculate_next_test_interval s n =
        (if due_count s n ≤ 5 then 5 else 3) := by
    intro s n h1
    unfold calculate_next_test_interval
    rw [if_neg (by omega)]
  refine ⟨?_, ?_, ?_, htier store now, ?_⟩
  · unfold calculate_next_test_interval
    by_cases h0 : due_count store now = 0
    · rw [if_pos h0]
      cases he : earliest_upcoming store now with
      | none => norm_num
      | some t =>
          exact lt_min (lt_of_lt_of_le (by norm_num) (le_max_left _ _))
            (by norm_num)
    · rw [if_neg h0]
      by_cases h5 : due_count store now ≤ 5 <;> simp [h5]
  · intro he
    subst he
    rfl
  · intro t h0 ht
    unfold calculate_next_test_interval
    rw [if_pos h0, ht, max_comm]
  · intro store2 now2 h1 h5 h25
    rw [htier store now h1, htier store2 now2 (by omega),
      if_pos h5, if_neg (by omega)]
    norm_num

/-- Witness for C9: the empty store gives the default 5, and one concrete
due card gives the ≤ 5 tier value 5. -/
theorem C9_next_check_delay_witness :
    calculate_next_test_interval [] 0 = 5 ∧
    (1 ≤ due_count [sampleCard 1 1 none (some 0) 0 0 0 100 (1/2)] 0 ∧
     calculate_next_test_interval [sampleCard 1 1 none (some 0) 0 0 0 100 (1/2)] 0 =
       (if due_count [sampleCard 1 1 none (some 0) 0 0 0 100 (1/2)] 0 ≤ 5
        then 5 else 3)) :=
  ⟨(C9_next_check_delay [] 0).2.1 rfl,
   by decide,
   (C9_next_check_delay [sampleCard 1 1 none (some 0) 0 0 0 100 (1/2)] 0).2.2.2.1
     (by decide)⟩

/-- `get_multiple_choice_options` from `reviewer_module.py` (stage 3): the
correct word first, up to 3 contextual words different from it, padded to 4
with default words not already present, then shuffled and truncated to 4.
The two `random.shuffle` calls are modelled by the permutation parameters
`sh1` (shuffling the filtered contextual pool) and `sh2` (shuffling the
final options). -/
def get_multiple_choice_options (contextual_words : List String)
    (flashcard : FlashCard) (sh1 sh2 : List String → List String) :
    List String :=
  let options1 := [flashcard.word]
  let available_words := sh1 (contextual_words.filter (fun w => w != flashcard.word))
  let options2 := options1 ++ available_words.take 3
  let default_words := ["example", "test", "word", "sample", "demo"]
  let options3 := default_words.foldl
    (fun opts w => if opts.length < 4 ∧ ¬ w ∈ opts then opts ++ [w] else opts)
    options2
  (sh2 options3).take 4

/-- `get_multiple_choice_meanings_for_stage2` from `reviewer_module.py`
(stage 2), same shape over meanings. -/
def get_multiple_choice_meanings_for_stage2 (contextual_meanings : List String)
    (flashcard : FlashCard) (sh1 sh2 : List String → List String) :
    List String :=
  let options1 := [flashcard.meaning]
  let available_meanings :=
    sh1 (contextual_meanings.filter (fun m => m != flashcard.meaning))
  let options2 := options1 ++ available_meanings.take 3
  let default_meanings :=
    ["a common example word", "a test meaning for practice",
     "a sample definition", "a demonstration phrase", "a placeholder meaning"]
  let options3 := default_meanings.foldl
    (fun opts m => if opts.length < 4 ∧ ¬ m ∈ opts then opts ++ [m] else opts)
    options2
  (sh2 options3).take 4

/-- Filtering away every occurrence of `w` leaves no occurrence of `w`. -/
theorem count_filter_ne (w : String) (l : List String) :
    (l.filter (fun x => x != w)).count w = 0 := by
  rw [List.count_eq_zero]
  intro hmem
  rw [List.mem_filter] at hmem
  simp at hmem

/-- The default-padding fold keeps exactly one occurrence of a string that
already occurs exactly once (a duplicate is skipped by the membership
test, any other appended string is not that string). -/
theorem foldl_pad_count (w : String) :
    ∀ (ws opts : List String), opts.count w = 1 →
    (ws.foldl (fun opts x =>
      if opts.length < 4 ∧ ¬ x ∈ opts then opts ++ [x] else opts) opts).count w
      = 1 := by
  intro ws
  induction ws with
  | nil => exact fun opts h => h
  | cons x rest ih =>
      intro opts h
      simp only [List.foldl_cons]
      by_cases hc : opts.length < 4 ∧ ¬ x ∈ opts
      · rw [if_pos hc]
        apply ih
        have hxw : x ≠ w := by
          intro he
          subst he
          exact hc.2 (List.count_pos_iff.1 (by omega))
        have h1 : List.count w [x] = 0 := by
          rw [List.count_eq_zero]
          simp [Ne.symm hxw]
        rw [List.count_append]
        omega
      · rw [if_neg hc]
        exact ih opts h

/-- The default-padding fold never grows the list beyond 4 entries. -/
theorem foldl_pad_length :
    ∀ (ws opts : List String), opts.length ≤ 4 →
    (ws.foldl (fun opts x =>
      if opts.length < 4 ∧ ¬ x ∈ opts then opts ++ [x] else opts) opts).length
      ≤ 4 := by
  intro ws
  induction ws with
  | nil => exact fun opts h => h
  | cons x rest ih =>
      intro opts h
      simp only [List.foldl_cons]
      by_cases hc : opts.length < 4 ∧ ¬ x ∈ opts
      · rw [if_pos hc]
        apply ih
        simp
        omega
      · rw [if_neg hc]
        exact ih opts h

/-- Core of the option-assembly argument, generic in the key string and
the default pool: the assembled 4-option list contains the key exactly
once — the single copy placed first as the correct answer. -/
theorem count_key_options (key : String) (pool defaults : List String)
    (sh1 sh2 : List String → List String)
    (h1 : ∀ l, List.Perm (sh1 l) l) (h2 : ∀ l, List.Perm (sh2 l) l) :
    ((sh2 (defaults.foldl
        (fun opts w => if opts.length < 4 ∧ ¬ w ∈ opts then opts ++ [w] else opts)
        ([key] ++ (sh1 (pool.filter (fun w => w != key))).take 3))).take 4).count
      key = 1 := by
  have havail : ((sh1 (pool.filter (fun w => w != key))).take 3).count key = 0 := by
    have h0 : (pool.filter (fun w => w != key)).count key = 0 :=
      count_filter_ne key pool
    have hp := (h1 (pool.filter (fun w => w != key))).count_eq key
    have hsub := List.Sublist.count_le
      (List.take_sublist 3 (sh1 (pool.filter (fun w => w != key)))) key
    omega
  have hbase_cnt : ([key] ++ (sh1 (pool.filter (fun w => w != key))).take 3).count
      key = 1 := by
    rw [List.count_append]
    have hself : List.count key [key] = 1 := by simp
    omega
  have hbase_len : ([key] ++ (sh1 (pool.filter (fun w => w != key))).take 3).length
      ≤ 4 := by
    rw [List.length_append]
    have := List.length_take 3 (sh1 (pool.filter (fun w => w != key)))
    simp only [List.length_singleton]
    omega
  have hfold_cnt := foldl_pad_count key defaults _ hbase_cnt
  have hfold_len := foldl_pad_length defaults _ hbase_len
  have hperm2 := h2 (defaults.foldl
    (fun opts w => if opts.length < 4 ∧ ¬ w ∈ opts then opts ++ [w] else opts)
    ([key] ++ (sh1 (pool.filter (fun w => w != key))).take 3))
  have htake : (sh2 (defaults.foldl
      (fun opts w => if opts.length < 4 ∧ ¬ w ∈ opts then opts ++ [w] else opts)
      ([key] ++ (sh1 (pool.filter (fun w => w != key))).take 3))).take 4 =
      sh2 (defaults.foldl
      (fun opts w => if opts.length < 4 ∧ ¬ w ∈ opts then opts ++ [w] else opts)
      ([key] ++ (sh1 (pool.filter (fun w => w != key))).take 3)) := by
    apply List.take_of_length_le
    rw [hperm2.length_eq]
    exact hfold_len
  rw [htake, hperm2.count_eq]
  exact hfold_cnt

/-- Claim C8: whatever contextual pools the store-level samplers supply
and whatever the shuffles do, the 4 presented options contain the target
card's own word (stage 3), resp. its own meaning (stage 2), exactly once —
the copy added first as the correct answer — so the wrong options never
contain the target's own term resp. definition. -/
theorem C8_distractor_exclusivity (pool_w pool_m : List String)
    (c : FlashCard) (sh1 sh2 sh3 sh4 : List String → List String)
    (h1 : ∀ l, List.Perm (sh1 l) l) (h2 : ∀ l, List.Perm (sh2 l) l)
    (h3 : ∀ l, List.Perm (sh3 l) l) (h4 : ∀ l, List.Perm (sh4 l) l) :
    (get_multiple_choice_options pool_w c sh1 sh2).count c.word = 1 ∧
    (get_multiple_choice_meanings_for_stage2 pool_m c sh3 sh4).count c.meaning
      = 1 := by
  constructor
  · simp only [get_multiple_choice_options]
    exact count_key_options c.word pool_w
      ["example", "test", "word", "sample", "demo"] sh1 sh2 h1 h2
  · simp only [get_multiple_choice_meanings_for_stage2]
    exact count_key_options c.meaning pool_m
      ["a common example word", "a test meaning for practice",
       "a sample definition", "a demonstration phrase", "a placeholder meaning"]
      sh3 sh4 h3 h4

/-- Witness for C8: identity shuffles, a pool containing the target's own
word and meaning (as duplicates from sibling cards would supply). -/
theorem C8_distractor_exclusivity_witness :
    (get_multiple_choice_options ["w", "apple"]
      (sampleCard 1 1 none (some 0) 0 0 0 100 (1/2))
      (fun l => l) (fun l => l)).count
      (sampleCard 1 1 none (some 0) 0 0 0 100 (1/2)).word = 1 ∧
    (get_multiple_choice_meanings_for_stage2 ["m"]
      (sampleCard 1 1 none (some 0) 0 0 0 100 (1/2))
      (fun l => l) (fun l => l)).count
      (sampleCard 1 1 none (some 0) 0 0 0 100 (1/2)).meaning = 1 :=
  C8_distractor_exclusivity ["w", "apple"] ["m"]
    (sampleCard 1 1 none (some 0) 0 0 0 100 (1/2))
    (fun l => l) (fun l => l) (fun l => l) (fun l => l)
    (fun l => List.Perm.refl l) (fun l => List.Perm.refl l)
    (fun l => List.Perm.refl l) (fun l => List.Perm.refl l)

end Drip
